import Mathlib

/-! The ngrok server metrics plane (`src/server/metrics.go`).

A shallow embedding of the two `Metrics` implementations of the ngrok server:

* `LocalMetrics`, a record of go-metrics counters and meters together with two
  URL lists, updated by `OpenTunnel`, `CloseTunnel`, `OpenConnection` and
  `CloseConnection`;
* the batching loop started by `NewKeenIoMetrics`, as a step function on the
  batch map;
* the choice between both made by `init` from the process environment.

go-metrics is an external library.  Of a `Counter` and of a `Meter` only the
running count is modelled: the value returned by `Count()`, which the library
keeps in an `int64` and moves by the argument of `Inc` (respectively `Mark`).
Where the argument is a byte count, which may be any `int64`, the addition is
the wrapping addition of `int64` (`Counter.IncInt64`).  Where the argument is
the constant 1 or -1 the count is an integer moved by single steps, which
needs 2^63 calls to leave the `int64` range.  The rates of a meter are floating
point values that depend on wall clock time and are left out.
-/

namespace Ngrok

/-! ## Data model -/

/-- The part of the `Auth` message reached through `t.ctl.auth`. -/
structure Auth where
  OS : String
  deriving DecidableEq, Repr

/-- The part of a control session reached through `t.ctl`. -/
structure Control where
  auth : Auth
  deriving DecidableEq, Repr

/-- The part of the `ReqTunnel` message reached through `t.req`. -/
structure ReqTunnel where
  Protocol : String
  deriving DecidableEq, Repr

/-- The fields of `Tunnel` read by the metrics code: `t.ctl.auth.OS`,
`t.req.Protocol` and `t.url`. -/
structure Tunnel where
  ctl : Control
  req : ReqTunnel
  url : String
  deriving DecidableEq, Repr

/-- Builds a tunnel from its operating system, protocol and public URL. -/
def Tunnel.make (os protocol url : String) : Tunnel :=
  { ctl := { auth := { OS := os } }, req := { Protocol := protocol }, url := url }

/-- The count of a `gometrics.Counter`. -/
structure Counter where
  count : Int
  deriving DecidableEq, Repr

/-- The count of a `gometrics.Meter`. -/
structure Meter where
  count : Int
  deriving DecidableEq, Repr

/-- Model of `gometrics.NewCounter()`. -/
def NewCounter : Counter := { count := 0 }

/-- Model of `gometrics.NewMeter()`. -/
def NewMeter : Meter := { count := 0 }

/-- Model of `Counter.Inc(i)` for the calls `Inc(1)` and `Inc(-1)`: adds `i` to
the count. -/
def Counter.Inc (c : Counter) (i : Int) : Counter := { count := c.count + i }

/-- The `int64` that stands for the integer `x` in two's complement: `x` moved
by a multiple of 2^64 (18446744073709551616) into the range from -2^63
(-9223372036854775808) to 2^63 - 1. -/
def wrapInt64 (x : Int) : Int :=
  (x + 9223372036854775808) % 18446744073709551616 - 9223372036854775808

/-- The largest `int64`, 2^63 - 1. -/
def MaxInt64 : Int := 9223372036854775807

/-- Whether the integer is the value of an `int64`. -/
def InInt64 (x : Int) : Prop := -9223372036854775808 ≤ x ∧ x ≤ 9223372036854775807

instance (x : Int) : Decidable (InInt64 x) :=
  inferInstanceAs (Decidable (-9223372036854775808 ≤ x ∧ x ≤ 9223372036854775807))

/-- Model of `Counter.Inc(i)` for an argument that may be any `int64`: the
`int64` addition of go-metrics (`atomic.AddInt64`), which wraps around. -/
def Counter.IncInt64 (c : Counter) (i : Int) : Counter :=
  { count := wrapInt64 (c.count + i) }

/-- Model of `Meter.Mark(n)`: adds `n` to the count. -/
def Meter.Mark (c : Meter) (n : Int) : Meter := { count := c.count + n }

/-- The fields of `LocalMetrics` that hold metric values.  The logger, the
report interval and the timer `connTimer` (never updated) are left out. -/
structure LocalMetrics where
  windowsCounter : Counter
  linuxCounter : Counter
  osxCounter : Counter
  otherCounter : Counter
  tunnelMeter : Meter
  tcpTunnelMeter : Meter
  httpTunnelMeter : Meter
  connMeter : Meter
  lostHeartbeatMeter : Meter
  bytesInCount : Counter
  bytesOutCount : Counter
  currWindowsCounter : Counter
  currLinuxCounter : Counter
  currOsxCounter : Counter
  currOtherCounter : Counter
  currTunnelMeter : Meter
  currTcpTunnelMeter : Meter
  currHttpTunnelMeter : Meter
  currConnMeter : Meter
  udpTunnelMeter : Meter
  currUdpTunnelMeter : Meter
  httpsTunnelMeter : Meter
  currHttpsTunnelMeter : Meter
  clientUrlList : List String
  currClientUrlList : List String
  deriving DecidableEq, Repr

/-- Model of `NewLocalMetrics`: every counter and meter is new and both URL
lists are empty (the source writes the bare type `[]string` for them). -/
def NewLocalMetrics : LocalMetrics :=
  { windowsCounter := NewCounter
    linuxCounter := NewCounter
    osxCounter := NewCounter
    otherCounter := NewCounter
    tunnelMeter := NewMeter
    tcpTunnelMeter := NewMeter
    httpTunnelMeter := NewMeter
    connMeter := NewMeter
    lostHeartbeatMeter := NewMeter
    bytesInCount := NewCounter
    bytesOutCount := NewCounter
    currWindowsCounter := NewCounter
    currLinuxCounter := NewCounter
    currOsxCounter := NewCounter
    currOtherCounter := NewCounter
    currTunnelMeter := NewMeter
    currTcpTunnelMeter := NewMeter
    currHttpTunnelMeter := NewMeter
    currConnMeter := NewMeter
    udpTunnelMeter := NewMeter
    currUdpTunnelMeter := NewMeter
    httpsTunnelMeter := NewMeter
    currHttpsTunnelMeter := NewMeter
    clientUrlList := []
    currClientUrlList := [] }

/-! ## The four lifecycle operations of `LocalMetrics` -/

/-- Model of `(*LocalMetrics).OpenTunnel`.  Each Go `switch` is a chain of
string comparisons in the order of its cases. -/
def LocalMetrics.OpenTunnel (m : LocalMetrics) (t : Tunnel) : LocalMetrics :=
  let m := { m with tunnelMeter := m.tunnelMeter.Mark 1 }
  let m :=
    if t.ctl.auth.OS = "windows" then { m with windowsCounter := m.windowsCounter.Inc 1 }
    else if t.ctl.auth.OS = "linux" then { m with linuxCounter := m.linuxCounter.Inc 1 }
    else if t.ctl.auth.OS = "darwin" then { m with osxCounter := m.osxCounter.Inc 1 }
    else { m with otherCounter := m.otherCounter.Inc 1 }
  let m :=
    if t.req.Protocol = "tcp" then { m with tcpTunnelMeter := m.tcpTunnelMeter.Mark 1 }
    else if t.req.Protocol = "http" then { m with httpTunnelMeter := m.httpTunnelMeter.Mark 1 }
    else if t.req.Protocol = "udp" then { m with udpTunnelMeter := m.udpTunnelMeter.Mark 1 }
    else if t.req.Protocol = "https" then
      { m with httpsTunnelMeter := m.httpsTunnelMeter.Mark 1 }
    else m
  let m := { m with currTunnelMeter := m.currTunnelMeter.Mark 1 }
  let m :=
    if t.ctl.auth.OS = "windows" then
      { m with currWindowsCounter := m.currWindowsCounter.Inc 1 }
    else if t.ctl.auth.OS = "linux" then
      { m with currLinuxCounter := m.currLinuxCounter.Inc 1 }
    else if t.ctl.auth.OS = "darwin" then
      { m with currOsxCounter := m.currOsxCounter.Inc 1 }
    else { m with currOtherCounter := m.currOtherCounter.Inc 1 }
  let m :=
    if t.req.Protocol = "tcp" then
      { m with currTcpTunnelMeter := m.currTcpTunnelMeter.Mark 1 }
    else if t.req.Protocol = "http" then
      { m with currHttpTunnelMeter := m.currHttpTunnelMeter.Mark 1 }
    else if t.req.Protocol = "udp" then
      { m with currUdpTunnelMeter := m.currUdpTunnelMeter.Mark 1 }
    else if t.req.Protocol = "https" then
      { m with currHttpsTunnelMeter := m.currHttpsTunnelMeter.Mark 1 }
    else m
  let m := { m with clientUrlList := m.clientUrlList ++ [t.url] }
  { m with currClientUrlList := m.currClientUrlList ++ [t.url] }

/-- Model of `(*LocalMetrics).CloseTunnel`. -/
def LocalMetrics.CloseTunnel (m : LocalMetrics) (t : Tunnel) : LocalMetrics :=
  let m := { m with currTunnelMeter := m.currTunnelMeter.Mark (-1) }
  let m :=
    if t.ctl.auth.OS = "windows" then
      { m with currWindowsCounter := m.currWindowsCounter.Inc (-1) }
    else if t.ctl.auth.OS = "linux" then
      { m with currLinuxCounter := m.currLinuxCounter.Inc (-1) }
    else if t.ctl.auth.OS = "darwin" then
      { m with currOsxCounter := m.currOsxCounter.Inc (-1) }
    else { m with currOtherCounter := m.currOtherCounter.Inc (-1) }
  if t.req.Protocol = "tcp" then
    { m with currTcpTunnelMeter := m.currTcpTunnelMeter.Mark (-1) }
  else if t.req.Protocol = "http" then
    { m with currHttpTunnelMeter := m.currHttpTunnelMeter.Mark (-1) }
  else if t.req.Protocol = "udp" then
    { m with currUdpTunnelMeter := m.currUdpTunnelMeter.Mark (-1) }
  else if t.req.Protocol = "https" then
    { m with currHttpsTunnelMeter := m.currHttpsTunnelMeter.Mark (-1) }
  else m

/-- Model of `(*LocalMetrics).OpenConnection`; neither argument is read. -/
def LocalMetrics.OpenConnection (m : LocalMetrics) (_t : Tunnel) : LocalMetrics :=
  let m := { m with connMeter := m.connMeter.Mark 1 }
  { m with currConnMeter := m.currConnMeter.Mark 1 }

/-- Model of `(*LocalMetrics).CloseConnection`; the tunnel, the connection and
the start time are not read.  `bytesIn` and `bytesOut` are `int64` in the
source, and both additions are `int64` additions. -/
def LocalMetrics.CloseConnection (m : LocalMetrics) (_t : Tunnel)
    (bytesIn bytesOut : Int) : LocalMetrics :=
  let m := { m with bytesInCount := m.bytesInCount.IncInt64 bytesIn }
  let m := { m with bytesOutCount := m.bytesOutCount.IncInt64 bytesOut }
  { m with currConnMeter := m.currConnMeter.Mark (-1) }

/-! ## Traces of operations -/

/-- A `*Tunnel` argument of a call: the address, which tells tunnels apart, and
the value of the fields of the tunnel at the time of the call. -/
structure TunnelPtr where
  addr : Nat
  val : Tunnel
  deriving DecidableEq, Repr

/-- One call of the `Metrics` interface.  The connection and the start time
are left out: `LocalMetrics` reads neither. -/
inductive Op where
  | openTunnel (t : TunnelPtr)
  | closeTunnel (t : TunnelPtr)
  | openConnection (t : TunnelPtr)
  | closeConnection (t : TunnelPtr) (bytesIn bytesOut : Int)
  deriving DecidableEq, Repr

/-- Applies one call to the metrics. -/
def LocalMetrics.apply (m : LocalMetrics) : Op → LocalMetrics
  | .openTunnel t => m.OpenTunnel t.val
  | .closeTunnel t => m.CloseTunnel t.val
  | .openConnection t => m.OpenConnection t.val
  | .closeConnection t bytesIn bytesOut => m.CloseConnection t.val bytesIn bytesOut

/-- Applies a sequence of calls, first call first. -/
def LocalMetrics.run (m : LocalMetrics) (tr : List Op) : LocalMetrics :=
  tr.foldl LocalMetrics.apply m

/-! ## Reading a trace -/

/-- Whether the operating system reported by the client of the tunnel is `os`. -/
def Tunnel.osIs (os : String) (t : Tunnel) : Bool := decide (t.ctl.auth.OS = os)

/-- Whether the operating system is none of `windows`, `linux`, `darwin`. -/
def Tunnel.osOther (t : Tunnel) : Bool :=
  !t.osIs "windows" && !t.osIs "linux" && !t.osIs "darwin"

/-- Whether the requested protocol of the tunnel is `p`. -/
def Tunnel.protoIs (p : String) (t : Tunnel) : Bool := decide (t.req.Protocol = p)

/-- Whether the requested protocol is one of the four that have a meter. -/
def Tunnel.protoKnown (t : Tunnel) : Bool :=
  t.protoIs "tcp" || t.protoIs "http" || t.protoIs "udp" || t.protoIs "https"

/-- The integer 1 for `true` and 0 for `false`. -/
def ind (b : Bool) : Int := if b then 1 else 0

/-- The number of tunnels of the list that satisfy `p`, as an integer. -/
def cnt (p : Tunnel → Bool) (l : List Tunnel) : Int := ((l.countP p : Nat) : Int)

/-- The tunnels passed to `OpenTunnel`, in call order, with the field values
they had at the call. -/
def opened : List Op → List Tunnel
  | [] => []
  | .openTunnel t :: tr => t.val :: opened tr
  | .closeTunnel _ :: tr => opened tr
  | .openConnection _ :: tr => opened tr
  | .closeConnection _ _ _ :: tr => opened tr

/-- The tunnels passed to `CloseTunnel`, in call order, with the field values
they had at the call. -/
def closed : List Op → List Tunnel
  | [] => []
  | .openTunnel _ :: tr => closed tr
  | .closeTunnel t :: tr => t.val :: closed tr
  | .openConnection _ :: tr => closed tr
  | .closeConnection _ _ _ :: tr => closed tr

/-- The number of `OpenConnection` calls. -/
def openConnections : List Op → Nat
  | [] => 0
  | .openTunnel _ :: tr => openConnections tr
  | .closeTunnel _ :: tr => openConnections tr
  | .openConnection _ :: tr => openConnections tr + 1
  | .closeConnection _ _ _ :: tr => openConnections tr

/-- The `bytesIn` and `bytesOut` arguments of the `CloseConnection` calls, in
call order. -/
def closeConnectionBytes : List Op → List (Int × Int)
  | [] => []
  | .openTunnel _ :: tr => closeConnectionBytes tr
  | .closeTunnel _ :: tr => closeConnectionBytes tr
  | .openConnection _ :: tr => closeConnectionBytes tr
  | .closeConnection _ bytesIn bytesOut :: tr => (bytesIn, bytesOut) :: closeConnectionBytes tr

/-- The number of `CloseConnection` calls. -/
def closeConnections (tr : List Op) : Nat := (closeConnectionBytes tr).length

/-- Whether the open tunnel `e` is the tunnel passed as `t`: the same address. -/
def TunnelPtr.isTunnel (t e : TunnelPtr) : Bool := decide (e.addr = t.addr)

/-- Whether `CloseTunnel(t)` is a well-formed call when the tunnels `l` are
open: `t` is one of them, and its operating system and protocol are those it
was opened with. -/
def closable (l : List TunnelPtr) (t : TunnelPtr) : Bool :=
  match l.find? t.isTunnel with
  | some e =>
    decide (e.val.ctl.auth.OS = t.val.ctl.auth.OS ∧ e.val.req.Protocol = t.val.req.Protocol)
  | none => false

/-- The tunnels that are open after the trace when `l` were open before it,
each as it was opened: `OpenTunnel` adds its tunnel, `CloseTunnel` takes its
tunnel away. -/
def liveFrom (l : List TunnelPtr) : List Op → List TunnelPtr
  | [] => l
  | .openTunnel t :: tr => liveFrom (l ++ [t]) tr
  | .closeTunnel t :: tr => liveFrom (l.eraseP t.isTunnel) tr
  | .openConnection _ :: tr => liveFrom l tr
  | .closeConnection _ _ _ :: tr => liveFrom l tr

/-- The tunnels opened and not yet closed after a trace that starts with no
open tunnel, with the field values they were opened with. -/
def live (tr : List Op) : List Tunnel := (liveFrom [] tr).map TunnelPtr.val

/-- Whether, with the tunnels `l` open at the start, every `OpenTunnel` of the
trace opens a tunnel that is not open and every `CloseTunnel` closes a tunnel
that is open, with the operating system and protocol it was opened with. -/
def wellFormedFrom (l : List TunnelPtr) : List Op → Bool
  | [] => true
  | .openTunnel t :: tr => !l.any t.isTunnel && wellFormedFrom (l ++ [t]) tr
  | .closeTunnel t :: tr => closable l t && wellFormedFrom (l.eraseP t.isTunnel) tr
  | .openConnection _ :: tr => wellFormedFrom l tr
  | .closeConnection _ _ _ :: tr => wellFormedFrom l tr

/-- A well-formed trace, started with no open tunnel: each tunnel is closed
only after it was opened, at most once per opening, and its operating system
and protocol do not change while it is open. -/
def WellFormed (tr : List Op) : Prop := wellFormedFrom [] tr = true

instance (tr : List Op) : Decidable (WellFormed tr) :=
  inferInstanceAs (Decidable (wellFormedFrom [] tr = true))

/-- The trace that opens each tunnel of the list and closes it at once. -/
def openClose : List TunnelPtr → List Op
  | [] => []
  | t :: ts => .openTunnel t :: .closeTunnel t :: openClose ts

/-- The trace that opens a connection and closes it at once, for each entry of
the list (the tunnel and the byte counts passed to `CloseConnection`). -/
def openCloseConn : List (TunnelPtr × Int × Int) → List Op
  | [] => []
  | (t, bytesIn, bytesOut) :: cs =>
    .openConnection t :: .closeConnection t bytesIn bytesOut :: openCloseConn cs

/-- The current counter of the operating system class of `os`, chosen as the
`switch` of `OpenTunnel` chooses it. -/
def LocalMetrics.currOS (m : LocalMetrics) (os : String) : Int :=
  if os = "windows" then m.currWindowsCounter.count
  else if os = "linux" then m.currLinuxCounter.count
  else if os = "darwin" then m.currOsxCounter.count
  else m.currOtherCounter.count

/-- The current meter of protocol `p`, chosen as the `switch` of `OpenTunnel`
chooses it; 0 for a protocol that has no meter. -/
def LocalMetrics.currProtocol (m : LocalMetrics) (p : String) : Int :=
  if p = "tcp" then m.currTcpTunnelMeter.count
  else if p = "http" then m.currHttpTunnelMeter.count
  else if p = "udp" then m.currUdpTunnelMeter.count
  else if p = "https" then m.currHttpsTunnelMeter.count
  else 0

/-- The twelve cumulative counts: tunnels, the four operating system counters,
the four protocol meters, connections, bytes in and bytes out. -/
def LocalMetrics.cumulative (m : LocalMetrics) : List Int :=
  [m.tunnelMeter.count, m.windowsCounter.count, m.linuxCounter.count, m.osxCounter.count,
    m.otherCounter.count, m.tcpTunnelMeter.count, m.httpTunnelMeter.count,
    m.udpTunnelMeter.count, m.httpsTunnelMeter.count, m.connMeter.count,
    m.bytesInCount.count, m.bytesOutCount.count]

/-- The eight protocol meters, cumulative and current. -/
def LocalMetrics.protocolMeters (m : LocalMetrics) : List Int :=
  [m.tcpTunnelMeter.count, m.httpTunnelMeter.count, m.udpTunnelMeter.count,
    m.httpsTunnelMeter.count, m.currTcpTunnelMeter.count, m.currHttpTunnelMeter.count,
    m.currUdpTunnelMeter.count, m.currHttpsTunnelMeter.count]

/-- Whether the byte counts of the call, if it has any, are both non-negative. -/
def Op.bytesNonneg : Op → Prop
  | .closeConnection _ bytesIn bytesOut => 0 ≤ bytesIn ∧ 0 ≤ bytesOut
  | _ => True

/-- Whether the call, if it adds byte counts, leaves both byte counters of `m`
within the `int64` range: neither addition overflows. -/
def Op.noByteOverflow (m : LocalMetrics) : Op → Prop
  | .closeConnection _ bytesIn bytesOut =>
    InInt64 (m.bytesInCount.count + bytesIn) ∧ InInt64 (m.bytesOutCount.count + bytesOut)
  | _ => True

/-- The count reached from `c` by adding the integers of the list one after the
other, each time with the `int64` addition. -/
def wrapSum (c : Int) (l : List Int) : Int :=
  l.foldl (fun c x => wrapInt64 (c + x)) c

/-! ## Choice of the implementation at startup -/

/-- Model of `os.Getenv`: the value of the variable, the empty string when it
is not set. -/
def Getenv (env : String → Option String) (key : String) : String :=
  (env key).getD ""

/-- The value given to the package variable `metrics`: which constructor ran,
and with which interval in seconds. -/
inductive MetricsChoice where
  | keen (batchIntervalSeconds : Nat)
  | localMetrics (reportIntervalSeconds : Nat)
  deriving DecidableEq, Repr

/-- Model of `init`. -/
def init (env : String → Option String) : MetricsChoice :=
  let keenApiKey := Getenv env "KEEN_API_KEY"
  if keenApiKey ≠ "" then .keen 60 else .localMetrics 30

/-- Whether the upstream (`KeenIoMetrics`) implementation was chosen. -/
def MetricsChoice.isKeen : MetricsChoice → Bool
  | .keen _ => true
  | .localMetrics _ => false

/-! ## The batching loop of `NewKeenIoMetrics` -/

/-- Model of `KeenIoMetric`; `ε` stands for the `interface{}` of the event. -/
structure KeenIoMetric (ε : Type) where
  Collection : String
  Event : ε

/-- The batch `map[string][]interface{}` as a list of entries, one per key. -/
abbrev Batch (ε : Type) := List (String × List ε)

/-- Map lookup `batch[k]`, with `none` for the Go result `ok == false`. -/
def Batch.get {ε : Type} : Batch ε → String → Option (List ε)
  | [], _ => none
  | (k', v) :: b, k => if k' = k then some v else Batch.get b k

/-- Map assignment `batch[k] = v`. -/
def Batch.set {ε : Type} : Batch ε → String → List ε → Batch ε
  | [], k, v => [(k, v)]
  | (k', v') :: b, k, v => if k' = k then (k, v) :: b else (k', v') :: Batch.set b k v

/-- The keys of the map. -/
def Batch.keys {ε : Type} (b : Batch ε) : List String := b.map Prod.fst

/-- The `case m := <-k.Metrics` branch of the loop. -/
def Batch.add {ε : Type} (batch : Batch ε) (m : KeenIoMetric ε) : Batch ε :=
  let list :=
    match batch.get m.Collection with
    | some list => list
    | none => []
  batch.set m.Collection (list ++ [m.Event])

/-- A call `k.AuthedRequest(method, path, body)`; `π` stands for the type of
the serialized payload, `[]byte` in the source. -/
structure AuthedRequest (π : Type) where
  method : String
  path : String
  body : π
  deriving DecidableEq, Repr

/-- What the `select` of the loop receives: a metric from the channel, or a
tick of the batch timer. -/
inductive Input (ε : Type) where
  | metric (m : KeenIoMetric ε)
  | tick

/-- One iteration of the loop: the next batch and the requests made.
`marshal` stands for `json.Marshal`, with `none` for an error. -/
def loopStep {ε π : Type} (marshal : Batch ε → Option π) (batch : Batch ε) :
    Input ε → Batch ε × List (AuthedRequest π)
  | .metric m => (batch.add m, [])
  | .tick =>
    if batch.length = 0 then (batch, [])
    else
      match marshal batch with
      | none => ([], [])
      | some payload => ([], [{ method := "POST", path := "/events", body := payload }])

/-- The loop on a sequence of inputs: the last batch and all requests made, in
order. -/
def loopRun {ε π : Type} (marshal : Batch ε → Option π) (batch : Batch ε) :
    List (Input ε) → Batch ε × List (AuthedRequest π)
  | [] => (batch, [])
  | i :: is =>
    let r := loopStep marshal batch i
    let r' := loopRun marshal r.1 is
    (r'.1, r.2 ++ r'.2)

/-- The metrics among the inputs, in arrival order. -/
def metricsOf {ε : Type} : List (Input ε) → List (KeenIoMetric ε)
  | [] => []
  | .metric m :: is => m :: metricsOf is
  | .tick :: is => metricsOf is

/-- The number of ticks among the inputs. -/
def ticksOf {ε : Type} : List (Input ε) → Nat
  | [] => 0
  | .metric _ :: is => ticksOf is
  | .tick :: is => ticksOf is + 1

/-- The events that a batch holds for collection `c`. -/
def Batch.events {ε : Type} (b : Batch ε) (c : String) : List ε :=
  (b.get c).getD []

/-- The events of collection `c` in the posted batches, in posting order. -/
def postedEvents {ε : Type} (c : String) : List (AuthedRequest (Batch ε)) → List ε
  | [] => []
  | r :: rs => r.body.events c ++ postedEvents c rs

/-- The events of collection `c` among the metrics, in arrival order. -/
def eventsFor {ε : Type} (c : String) (ms : List (KeenIoMetric ε)) : List ε :=
  (ms.filter (fun m => decide (m.Collection = c))).map (fun m => m.Event)

/-- The batch built from the empty map by the metrics, in arrival order. -/
def collect {ε : Type} (ms : List (KeenIoMetric ε)) : Batch ε :=
  ms.foldl Batch.add []

/-- Written from the claim, to be compared with `loopStep`: the requests that a
tick makes when `pending` are the metrics received since the previous tick.
None when there is no such metric or their batch does not serialize, else one
POST to `/events` with the serialized batch. -/
def tickPosts {ε π : Type} (marshal : Batch ε → Option π) (pending : List (KeenIoMetric ε)) :
    List (AuthedRequest π) :=
  match pending with
  | [] => []
  | m :: ms =>
    match marshal (collect (m :: ms)) with
    | none => []
    | some payload => [{ method := "POST", path := "/events", body := payload }]

/-- Written from the claim: the metrics received since the last tick, after the
inputs, when `pending` were received since the tick before them. -/
def pendingFrom {ε : Type} (pending : List (KeenIoMetric ε)) :
    List (Input ε) → List (KeenIoMetric ε)
  | [] => pending
  | .metric m :: is => pendingFrom (pending ++ [m]) is
  | .tick :: is => pendingFrom [] is

/-- Written from the claim, to be compared with `loopRun`: all requests made on
the inputs.  A metric makes none and joins the pending metrics; a tick makes
`tickPosts` of the pending metrics, and none is pending after it. -/
def postsFrom {ε π : Type} (marshal : Batch ε → Option π) (pending : List (KeenIoMetric ε)) :
    List (Input ε) → List (AuthedRequest π)
  | [] => []
  | .metric m :: is => postsFrom marshal (pending ++ [m]) is
  | .tick :: is => tickPosts marshal pending ++ postsFrom marshal [] is

/-! ## Closed forms of the operations -/

theorem countP_cons_int (p : Tunnel → Bool) (t : Tunnel) (l : List Tunnel) :
    cnt p (t :: l) = ind (p t) + cnt p l := by
  unfold cnt
  rw [List.countP_cons]
  cases h : p t <;> simp [ind]
  omega

theorem cnt_nil (p : Tunnel → Bool) : cnt p [] = 0 := by simp [cnt]

theorem cnt_append (p : Tunnel → Bool) (l₁ l₂ : List Tunnel) :
    cnt p (l₁ ++ l₂) = cnt p l₁ + cnt p l₂ := by simp [cnt]

theorem cnt_eraseP (p : Tunnel → Bool) (q : TunnelPtr → Bool) (e : TunnelPtr) :
    ∀ l : List TunnelPtr, l.find? q = some e →
      cnt p ((l.eraseP q).map TunnelPtr.val) = cnt p (l.map TunnelPtr.val) - ind (p e.val) := by
  intro l
  induction l with
  | nil => intro h; simp at h
  | cons x l ih =>
    intro h
    by_cases hq : q x = true
    · simp only [List.find?_cons, hq, Option.some.injEq] at h
      subst h
      simp only [List.eraseP_cons, hq, cond_true, List.map_cons, countP_cons_int]
      omega
    · simp only [Bool.not_eq_true] at hq
      simp only [List.find?_cons, hq] at h
      simp only [List.eraseP_cons, hq, cond_false, List.map_cons, countP_cons_int, ih h]
      omega

theorem cnt_pos_of_mem (p : Tunnel → Bool) (t : Tunnel) (l : List Tunnel) (h : t ∈ l)
    (hp : p t = true) : 0 < cnt p l := by
  have : 0 < l.countP p := List.countP_pos_iff.mpr ⟨t, h, hp⟩
  unfold cnt
  omega

theorem ind_os_sum (t : Tunnel) :
    ind (t.osIs "windows") + ind (t.osIs "linux") + ind (t.osIs "darwin") + ind t.osOther
      = 1 := by
  unfold Tunnel.osOther Tunnel.osIs ind
  by_cases h1 : t.ctl.auth.OS = "windows"
  · simp [h1]
  · by_cases h2 : t.ctl.auth.OS = "linux"
    · simp [h2]
    · by_cases h3 : t.ctl.auth.OS = "darwin"
      · simp [h3]
      · simp [h1, h2, h3]

theorem ind_proto_sum (t : Tunnel) :
    ind (t.protoIs "tcp") + ind (t.protoIs "http") + ind (t.protoIs "udp")
      + ind (t.protoIs "https") = ind t.protoKnown := by
  unfold Tunnel.protoKnown Tunnel.protoIs ind
  by_cases h1 : t.req.Protocol = "tcp"
  · simp [h1]
  · by_cases h2 : t.req.Protocol = "http"
    · simp [h2]
    · by_cases h3 : t.req.Protocol = "udp"
      · simp [h3]
      · by_cases h4 : t.req.Protocol = "https"
        · simp [h4]
        · simp [h1, h2, h3, h4]

theorem cnt_os_sum (l : List Tunnel) :
    cnt (Tunnel.osIs "windows") l + cnt (Tunnel.osIs "linux") l + cnt (Tunnel.osIs "darwin") l
      + cnt Tunnel.osOther l = l.length := by
  induction l with
  | nil => simp [cnt]
  | cons t l ih =>
    have := ind_os_sum t
    simp only [countP_cons_int, List.length_cons, Nat.cast_add, Nat.cast_one]
    omega

theorem cnt_proto_sum (l : List Tunnel) :
    cnt (Tunnel.protoIs "tcp") l + cnt (Tunnel.protoIs "http") l + cnt (Tunnel.protoIs "udp") l
      + cnt (Tunnel.protoIs "https") l = cnt Tunnel.protoKnown l := by
  induction l with
  | nil => simp [cnt]
  | cons t l ih =>
    have := ind_proto_sum t
    simp only [countP_cons_int]
    omega

theorem wrapInt64_add_wrapInt64 (a b : Int) :
    wrapInt64 (wrapInt64 a + b) = wrapInt64 (a + b) := by
  unfold wrapInt64
  omega

theorem wrapInt64_of_inInt64 {x : Int} (h : InInt64 x) : wrapInt64 x = x := by
  unfold InInt64 at h
  unfold wrapInt64
  omega

theorem wrapSum_append (c : Int) (l : List Int) (x : Int) :
    wrapSum c (l ++ [x]) = wrapInt64 (wrapSum c l + x) := by
  simp [wrapSum, List.foldl_append]

theorem wrapSum_zero (l : List Int) : wrapSum 0 l = wrapInt64 l.sum := by
  induction l using List.reverseRecOn with
  | nil => simp [wrapSum, wrapInt64]
  | append_singleton l x ih =>
    rw [wrapSum_append, ih, wrapInt64_add_wrapInt64]
    simp

theorem OpenTunnel_eq (m : LocalMetrics) (t : Tunnel) :
    m.OpenTunnel t =
      { m with
        tunnelMeter := ⟨m.tunnelMeter.count + 1⟩
        windowsCounter := ⟨m.windowsCounter.count + ind (t.osIs "windows")⟩
        linuxCounter := ⟨m.linuxCounter.count + ind (t.osIs "linux")⟩
        osxCounter := ⟨m.osxCounter.count + ind (t.osIs "darwin")⟩
        otherCounter := ⟨m.otherCounter.count + ind t.osOther⟩
        tcpTunnelMeter := ⟨m.tcpTunnelMeter.count + ind (t.protoIs "tcp")⟩
        httpTunnelMeter := ⟨m.httpTunnelMeter.count + ind (t.protoIs "http")⟩
        udpTunnelMeter := ⟨m.udpTunnelMeter.count + ind (t.protoIs "udp")⟩
        httpsTunnelMeter := ⟨m.httpsTunnelMeter.count + ind (t.protoIs "https")⟩
        currTunnelMeter := ⟨m.currTunnelMeter.count + 1⟩
        currWindowsCounter := ⟨m.currWindowsCounter.count + ind (t.osIs "windows")⟩
        currLinuxCounter := ⟨m.currLinuxCounter.count + ind (t.osIs "linux")⟩
        currOsxCounter := ⟨m.currOsxCounter.count + ind (t.osIs "darwin")⟩
        currOtherCounter := ⟨m.currOtherCounter.count + ind t.osOther⟩
        currTcpTunnelMeter := ⟨m.currTcpTunnelMeter.count + ind (t.protoIs "tcp")⟩
        currHttpTunnelMeter := ⟨m.currHttpTunnelMeter.count + ind (t.protoIs "http")⟩
        currUdpTunnelMeter := ⟨m.currUdpTunnelMeter.count + ind (t.protoIs "udp")⟩
        currHttpsTunnelMeter := ⟨m.currHttpsTunnelMeter.count + ind (t.protoIs "https")⟩
        clientUrlList := m.clientUrlList ++ [t.url]
        currClientUrlList := m.currClientUrlList ++ [t.url] } := by
  unfold LocalMetrics.OpenTunnel
  split_ifs <;>
    simp_all [Counter.Inc, Meter.Mark, ind, Tunnel.osIs, Tunnel.osOther, Tunnel.protoIs]

theorem CloseTunnel_eq (m : LocalMetrics) (t : Tunnel) :
    m.CloseTunnel t =
      { m with
        currTunnelMeter := ⟨m.currTunnelMeter.count - 1⟩
        currWindowsCounter := ⟨m.currWindowsCounter.count - ind (t.osIs "windows")⟩
        currLinuxCounter := ⟨m.currLinuxCounter.count - ind (t.osIs "linux")⟩
        currOsxCounter := ⟨m.currOsxCounter.count - ind (t.osIs "darwin")⟩
        currOtherCounter := ⟨m.currOtherCounter.count - ind t.osOther⟩
        currTcpTunnelMeter := ⟨m.currTcpTunnelMeter.count - ind (t.protoIs "tcp")⟩
        currHttpTunnelMeter := ⟨m.currHttpTunnelMeter.count - ind (t.protoIs "http")⟩
        currUdpTunnelMeter := ⟨m.currUdpTunnelMeter.count - ind (t.protoIs "udp")⟩
        currHttpsTunnelMeter := ⟨m.currHttpsTunnelMeter.count - ind (t.protoIs "https")⟩ } := by
  unfold LocalMetrics.CloseTunnel
  split_ifs <;>
    simp_all [Counter.Inc, Meter.Mark, ind, Tunnel.osIs, Tunnel.osOther, Tunnel.protoIs,
      sub_eq_add_neg]

/-- The state reached from `m` by a trace, as a function of what the trace
contains. -/
theorem run_eq (tr : List Op) : ∀ m : LocalMetrics,
    m.run tr =
      { m with
        tunnelMeter := ⟨m.tunnelMeter.count + (opened tr).length⟩
        windowsCounter := ⟨m.windowsCounter.count + cnt (Tunnel.osIs "windows") (opened tr)⟩
        linuxCounter := ⟨m.linuxCounter.count + cnt (Tunnel.osIs "linux") (opened tr)⟩
        osxCounter := ⟨m.osxCounter.count + cnt (Tunnel.osIs "darwin") (opened tr)⟩
        otherCounter := ⟨m.otherCounter.count + cnt Tunnel.osOther (opened tr)⟩
        tcpTunnelMeter := ⟨m.tcpTunnelMeter.count + cnt (Tunnel.protoIs "tcp") (opened tr)⟩
        httpTunnelMeter := ⟨m.httpTunnelMeter.count + cnt (Tunnel.protoIs "http") (opened tr)⟩
        udpTunnelMeter := ⟨m.udpTunnelMeter.count + cnt (Tunnel.protoIs "udp") (opened tr)⟩
        httpsTunnelMeter :=
          ⟨m.httpsTunnelMeter.count + cnt (Tunnel.protoIs "https") (opened tr)⟩
        connMeter := ⟨m.connMeter.count + openConnections tr⟩
        bytesInCount :=
          ⟨wrapSum m.bytesInCount.count ((closeConnectionBytes tr).map Prod.fst)⟩
        bytesOutCount :=
          ⟨wrapSum m.bytesOutCount.count ((closeConnectionBytes tr).map Prod.snd)⟩
        currTunnelMeter :=
          ⟨m.currTunnelMeter.count + (opened tr).length - (closed tr).length⟩
        currWindowsCounter :=
          ⟨m.currWindowsCounter.count + cnt (Tunnel.osIs "windows") (opened tr)
            - cnt (Tunnel.osIs "windows") (closed tr)⟩
        currLinuxCounter :=
          ⟨m.currLinuxCounter.count + cnt (Tunnel.osIs "linux") (opened tr)
            - cnt (Tunnel.osIs "linux") (closed tr)⟩
        currOsxCounter :=
          ⟨m.currOsxCounter.count + cnt (Tunnel.osIs "darwin") (opened tr)
            - cnt (Tunnel.osIs "darwin") (closed tr)⟩
        currOtherCounter :=
          ⟨m.currOtherCounter.count + cnt Tunnel.osOther (opened tr)
            - cnt Tunnel.osOther (closed tr)⟩
        currTcpTunnelMeter :=
          ⟨m.currTcpTunnelMeter.count + cnt (Tunnel.protoIs "tcp") (opened tr)
            - cnt (Tunnel.protoIs "tcp") (closed tr)⟩
        currHttpTunnelMeter :=
          ⟨m.currHttpTunnelMeter.count + cnt (Tunnel.protoIs "http") (opened tr)
            - cnt (Tunnel.protoIs "http") (closed tr)⟩
        currUdpTunnelMeter :=
          ⟨m.currUdpTunnelMeter.count + cnt (Tunnel.protoIs "udp") (opened tr)
            - cnt (Tunnel.protoIs "udp") (closed tr)⟩
        currHttpsTunnelMeter :=
          ⟨m.currHttpsTunnelMeter.count + cnt (Tunnel.protoIs "https") (opened tr)
            - cnt (Tunnel.protoIs "https") (closed tr)⟩
        currConnMeter :=
          ⟨m.currConnMeter.count + openConnections tr - closeConnections tr⟩
        clientUrlList := m.clientUrlList ++ (opened tr).map Tunnel.url
        currClientUrlList := m.currClientUrlList ++ (opened tr).map Tunnel.url } := by
  induction tr with
  | nil =>
    intro m
    simp [LocalMetrics.run, opened, closed, openConnections, closeConnections,
      closeConnectionBytes, cnt, wrapSum]
  | cons op tr ih =>
    intro m
    have h : m.run (op :: tr) = (m.apply op).run tr := rfl
    rw [h, ih]
    cases op with
    | openTunnel t =>
      simp only [LocalMetrics.apply, OpenTunnel_eq, opened, closed, openConnections,
        closeConnections, closeConnectionBytes, countP_cons_int, List.length_cons,
        List.map_cons, List.append_assoc, List.singleton_append, Nat.cast_add, Nat.cast_one]
      simp only [LocalMetrics.mk.injEq, Counter.mk.injEq, Meter.mk.injEq, true_and, and_true]
      refine ⟨?_, ?_, ?_, ?_, ?_, ?_, ?_, ?_, ?_, ?_, ?_, ?_, ?_, ?_, ?_, ?_, ?_, ?_⟩ <;> omega
    | closeTunnel t =>
      simp only [LocalMetrics.apply, CloseTunnel_eq, opened, closed, openConnections,
        closeConnections, closeConnectionBytes, countP_cons_int, List.length_cons,
        List.map_cons, List.append_assoc, List.singleton_append, Nat.cast_add, Nat.cast_one]
      simp only [LocalMetrics.mk.injEq, Counter.mk.injEq, Meter.mk.injEq, true_and, and_true]
      refine ⟨?_, ?_, ?_, ?_, ?_, ?_, ?_, ?_, ?_⟩ <;> omega
    | openConnection t =>
      simp only [LocalMetrics.apply, LocalMetrics.OpenConnection, Meter.Mark, opened, closed,
        openConnections, closeConnections, closeConnectionBytes, Nat.cast_add, Nat.cast_one]
      simp only [LocalMetrics.mk.injEq, Counter.mk.injEq, Meter.mk.injEq, true_and, and_true]
      refine ⟨?_, ?_⟩ <;> omega
    | closeConnection t bi bo =>
      simp only [LocalMetrics.apply, LocalMetrics.CloseConnection, Meter.Mark,
        Counter.IncInt64, opened, closed, openConnections, closeConnections,
        closeConnectionBytes, List.length_cons, List.map_cons, wrapSum, List.foldl_cons,
        Nat.cast_add, Nat.cast_one]
      simp only [LocalMetrics.mk.injEq, Counter.mk.injEq, Meter.mk.injEq, true_and, and_true]
      omega

/-- The state reached from the new metrics by a trace. -/
theorem run_new (tr : List Op) :
    NewLocalMetrics.run tr =
      { NewLocalMetrics with
        tunnelMeter := ⟨(opened tr).length⟩
        windowsCounter := ⟨cnt (Tunnel.osIs "windows") (opened tr)⟩
        linuxCounter := ⟨cnt (Tunnel.osIs "linux") (opened tr)⟩
        osxCounter := ⟨cnt (Tunnel.osIs "darwin") (opened tr)⟩
        otherCounter := ⟨cnt Tunnel.osOther (opened tr)⟩
        tcpTunnelMeter := ⟨cnt (Tunnel.protoIs "tcp") (opened tr)⟩
        httpTunnelMeter := ⟨cnt (Tunnel.protoIs "http") (opened tr)⟩
        udpTunnelMeter := ⟨cnt (Tunnel.protoIs "udp") (opened tr)⟩
        httpsTunnelMeter := ⟨cnt (Tunnel.protoIs "https") (opened tr)⟩
        connMeter := ⟨openConnections tr⟩
        bytesInCount := ⟨wrapInt64 ((closeConnectionBytes tr).map Prod.fst).sum⟩
        bytesOutCount := ⟨wrapInt64 ((closeConnectionBytes tr).map Prod.snd).sum⟩
        currTunnelMeter := ⟨(opened tr).length - (closed tr).length⟩
        currWindowsCounter :=
          ⟨cnt (Tunnel.osIs "windows") (opened tr) - cnt (Tunnel.osIs "windows") (closed tr)⟩
        currLinuxCounter :=
          ⟨cnt (Tunnel.osIs "linux") (opened tr) - cnt (Tunnel.osIs "linux") (closed tr)⟩
        currOsxCounter :=
          ⟨cnt (Tunnel.osIs "darwin") (opened tr) - cnt (Tunnel.osIs "darwin") (closed tr)⟩
        currOtherCounter := ⟨cnt Tunnel.osOther (opened tr) - cnt Tunnel.osOther (closed tr)⟩
        currTcpTunnelMeter :=
          ⟨cnt (Tunnel.protoIs "tcp") (opened tr) - cnt (Tunnel.protoIs "tcp") (closed tr)⟩
        currHttpTunnelMeter :=
          ⟨cnt (Tunnel.protoIs "http") (opened tr) - cnt (Tunnel.protoIs "http") (closed tr)⟩
        currUdpTunnelMeter :=
          ⟨cnt (Tunnel.protoIs "udp") (opened tr) - cnt (Tunnel.protoIs "udp") (closed tr)⟩
        currHttpsTunnelMeter :=
          ⟨cnt (Tunnel.protoIs "https") (opened tr)
            - cnt (Tunnel.protoIs "https") (closed tr)⟩
        currConnMeter := ⟨(openConnections tr : Int) - closeConnections tr⟩
        clientUrlList := (opened tr).map Tunnel.url
        currClientUrlList := (opened tr).map Tunnel.url } := by
  rw [run_eq]
  simp [NewLocalMetrics, NewCounter, NewMeter, wrapSum_zero]

theorem opened_openClose (ts : List TunnelPtr) :
    opened (openClose ts) = ts.map TunnelPtr.val := by
  induction ts with
  | nil => rfl
  | cons t ts ih => simp [openClose, opened, ih]

theorem closed_openClose (ts : List TunnelPtr) :
    closed (openClose ts) = ts.map TunnelPtr.val := by
  induction ts with
  | nil => rfl
  | cons t ts ih => simp [openClose, closed, ih]

/-- On a well-formed trace, for a property `p` of the operating system and the
protocol, the number of open tunnels satisfying `p` is the number of such
tunnels opened minus the number of such tunnels closed. -/
theorem cnt_liveFrom (p : Tunnel → Bool)
    (hp : ∀ a b : Tunnel, a.ctl.auth.OS = b.ctl.auth.OS → a.req.Protocol = b.req.Protocol →
      p a = p b)
    (tr : List Op) : ∀ l : List TunnelPtr,
    wellFormedFrom l tr = true →
      cnt p ((liveFrom l tr).map TunnelPtr.val)
        = cnt p (l.map TunnelPtr.val) + cnt p (opened tr) - cnt p (closed tr) := by
  induction tr with
  | nil => intro l _; simp [liveFrom, opened, closed, cnt_nil]
  | cons op tr ih =>
    intro l h
    cases op with
    | openTunnel t =>
      simp only [wellFormedFrom, Bool.and_eq_true] at h
      simp only [liveFrom, opened, closed, ih _ h.2, List.map_append, List.map_cons,
        List.map_nil, cnt_append, countP_cons_int, cnt_nil]
      omega
    | closeTunnel t =>
      simp only [wellFormedFrom, Bool.and_eq_true] at h
      obtain ⟨hc, hw⟩ := h
      unfold closable at hc
      cases hf : l.find? t.isTunnel with
      | none => simp [hf] at hc
      | some e =>
        simp only [hf, decide_eq_true_eq] at hc
        have hpe : p e.val = p t.val := hp _ _ hc.1 hc.2
        simp only [liveFrom, opened, closed, ih _ hw, cnt_eraseP p _ e l hf, countP_cons_int,
          hpe]
        omega
    | openConnection t =>
      simp only [wellFormedFrom] at h
      simp only [liveFrom, opened, closed, ih _ h]
    | closeConnection t bi bo =>
      simp only [wellFormedFrom] at h
      simp only [liveFrom, opened, closed, ih _ h]

theorem cnt_live (p : Tunnel → Bool)
    (hp : ∀ a b : Tunnel, a.ctl.auth.OS = b.ctl.auth.OS → a.req.Protocol = b.req.Protocol →
      p a = p b)
    (tr : List Op) (h : WellFormed tr) :
    cnt p (live tr) = cnt p (opened tr) - cnt p (closed tr) := by
  have := cnt_liveFrom p hp tr [] h
  simp only [List.map_nil, cnt_nil] at this
  unfold live
  omega

theorem osIs_class (os : String) (a b : Tunnel) (h : a.ctl.auth.OS = b.ctl.auth.OS)
    (_ : a.req.Protocol = b.req.Protocol) : a.osIs os = b.osIs os := by
  simp [Tunnel.osIs, h]

theorem osOther_class (a b : Tunnel) (h : a.ctl.auth.OS = b.ctl.auth.OS)
    (_ : a.req.Protocol = b.req.Protocol) : a.osOther = b.osOther := by
  simp [Tunnel.osOther, Tunnel.osIs, h]

theorem protoIs_class (p : String) (a b : Tunnel) (_ : a.ctl.auth.OS = b.ctl.auth.OS)
    (h : a.req.Protocol = b.req.Protocol) : a.protoIs p = b.protoIs p := by
  simp [Tunnel.protoIs, h]

theorem ind_nonneg (b : Bool) : 0 ≤ ind b := by cases b <;> simp [ind]

theorem protoKnown_iff (t : Tunnel) :
    t.protoKnown = true ↔ t.req.Protocol ∈ ["tcp", "http", "udp", "https"] := by
  simp [Tunnel.protoKnown, Tunnel.protoIs, or_assoc]

/-! ## Claims on `LocalMetrics` -/

/-- C1: from new metrics, opening and at once closing each tunnel of any list
leaves the current tunnel meter, the four current operating system counters and
the four current protocol meters at zero, and the total tunnel meter at the
number of tunnels. -/
theorem open_close_leaves_current_zero (ts : List TunnelPtr) :
    (NewLocalMetrics.run (openClose ts)).currTunnelMeter.count = 0 ∧
    (NewLocalMetrics.run (openClose ts)).currWindowsCounter.count = 0 ∧
    (NewLocalMetrics.run (openClose ts)).currLinuxCounter.count = 0 ∧
    (NewLocalMetrics.run (openClose ts)).currOsxCounter.count = 0 ∧
    (NewLocalMetrics.run (openClose ts)).currOtherCounter.count = 0 ∧
    (NewLocalMetrics.run (openClose ts)).currTcpTunnelMeter.count = 0 ∧
    (NewLocalMetrics.run (openClose ts)).currHttpTunnelMeter.count = 0 ∧
    (NewLocalMetrics.run (openClose ts)).currUdpTunnelMeter.count = 0 ∧
    (NewLocalMetrics.run (openClose ts)).currHttpsTunnelMeter.count = 0 ∧
    (NewLocalMetrics.run (openClose ts)).tunnelMeter.count = ts.length := by
  simp [run_new, opened_openClose, closed_openClose]

/-- C2: after a well-formed trace from new metrics, each current operating
system counter is the number of open tunnels of its class and each current
protocol meter is the number of open tunnels of its protocol; for every open
tunnel the current counter of its operating system class is positive, and so is
the current meter of its protocol when that is tcp, http, https or udp. -/
theorem current_counts_open_tunnels (tr : List Op) (h : WellFormed tr) :
    (NewLocalMetrics.run tr).currWindowsCounter.count = cnt (Tunnel.osIs "windows") (live tr) ∧
    (NewLocalMetrics.run tr).currLinuxCounter.count = cnt (Tunnel.osIs "linux") (live tr) ∧
    (NewLocalMetrics.run tr).currOsxCounter.count = cnt (Tunnel.osIs "darwin") (live tr) ∧
    (NewLocalMetrics.run tr).currOtherCounter.count = cnt Tunnel.osOther (live tr) ∧
    (NewLocalMetrics.run tr).currTcpTunnelMeter.count = cnt (Tunnel.protoIs "tcp") (live tr) ∧
    (NewLocalMetrics.run tr).currHttpTunnelMeter.count
      = cnt (Tunnel.protoIs "http") (live tr) ∧
    (NewLocalMetrics.run tr).currHttpsTunnelMeter.count
      = cnt (Tunnel.protoIs "https") (live tr) ∧
    (NewLocalMetrics.run tr).currUdpTunnelMeter.count = cnt (Tunnel.protoIs "udp") (live tr) ∧
    ∀ t ∈ live tr,
      0 < (NewLocalMetrics.run tr).currOS t.ctl.auth.OS ∧
      (t.req.Protocol ∈ ["tcp", "http", "https", "udp"] →
        0 < (NewLocalMetrics.run tr).currProtocol t.req.Protocol) := by
  have e1 := cnt_live (Tunnel.osIs "windows") (osIs_class _) tr h
  have e2 := cnt_live (Tunnel.osIs "linux") (osIs_class _) tr h
  have e3 := cnt_live (Tunnel.osIs "darwin") (osIs_class _) tr h
  have e4 := cnt_live Tunnel.osOther osOther_class tr h
  have e5 := cnt_live (Tunnel.protoIs "tcp") (protoIs_class _) tr h
  have e6 := cnt_live (Tunnel.protoIs "http") (protoIs_class _) tr h
  have e7 := cnt_live (Tunnel.protoIs "https") (protoIs_class _) tr h
  have e8 := cnt_live (Tunnel.protoIs "udp") (protoIs_class _) tr h
  simp only [run_new, ← e1, ← e2, ← e3, ← e4, ← e5, ← e6, ← e7, ← e8, true_and]
  intro t ht
  constructor
  · unfold LocalMetrics.currOS
    simp only [← e1, ← e2, ← e3, ← e4]
    split_ifs with h1 h2 h3
    · exact cnt_pos_of_mem _ t _ ht (by simp [Tunnel.osIs, h1])
    · exact cnt_pos_of_mem _ t _ ht (by simp [Tunnel.osIs, h2])
    · exact cnt_pos_of_mem _ t _ ht (by simp [Tunnel.osIs, h3])
    · exact cnt_pos_of_mem _ t _ ht (by simp [Tunnel.osOther, Tunnel.osIs, h1, h2, h3])
  · intro hp
    unfold LocalMetrics.currProtocol
    simp only [← e5, ← e6, ← e7, ← e8]
    split_ifs with h1 h2 h3 h4
    · exact cnt_pos_of_mem _ t _ ht (by simp [Tunnel.protoIs, h1])
    · exact cnt_pos_of_mem _ t _ ht (by simp [Tunnel.protoIs, h2])
    · exact cnt_pos_of_mem _ t _ ht (by simp [Tunnel.protoIs, h3])
    · exact cnt_pos_of_mem _ t _ ht (by simp [Tunnel.protoIs, h4])
    · simp [h1, h2, h3, h4] at hp

/-- Witness of C2 on a trace with three tunnels, two of them still open. -/
theorem current_counts_open_tunnels_witness :
    WellFormed [.openTunnel ⟨1, Tunnel.make "windows" "tcp" "tcp://a:1"⟩,
      .openTunnel ⟨2, Tunnel.make "linux" "http" "http://b"⟩,
      .closeTunnel ⟨1, Tunnel.make "windows" "tcp" "tcp://a:1"⟩,
      .openTunnel ⟨3, Tunnel.make "linux" "udp" "udp://c:2"⟩] ∧
    (NewLocalMetrics.run [.openTunnel ⟨1, Tunnel.make "windows" "tcp" "tcp://a:1"⟩,
      .openTunnel ⟨2, Tunnel.make "linux" "http" "http://b"⟩,
      .closeTunnel ⟨1, Tunnel.make "windows" "tcp" "tcp://a:1"⟩,
      .openTunnel ⟨3, Tunnel.make "linux" "udp" "udp://c:2"⟩]).currLinuxCounter.count
      = cnt (Tunnel.osIs "linux") (live [.openTunnel ⟨1, Tunnel.make "windows" "tcp" "tcp://a:1"⟩,
      .openTunnel ⟨2, Tunnel.make "linux" "http" "http://b"⟩,
      .closeTunnel ⟨1, Tunnel.make "windows" "tcp" "tcp://a:1"⟩,
      .openTunnel ⟨3, Tunnel.make "linux" "udp" "udp://c:2"⟩]) :=
  ⟨by decide, (current_counts_open_tunnels _ (by decide)).2.1⟩

/-- C3: `CloseTunnel` never touches `currClientUrlList`.  After every trace
from new metrics both URL lists hold the URL of every `OpenTunnel` call in call
order; after a tunnel is opened and closed no tunnel is open, yet its URL is
still in `currClientUrlList`. -/
theorem currClientUrlList_keeps_closed_url :
    (∀ tr : List Op,
      (NewLocalMetrics.run tr).clientUrlList = (opened tr).map Tunnel.url ∧
      (NewLocalMetrics.run tr).currClientUrlList = (opened tr).map Tunnel.url) ∧
    (∀ (m : LocalMetrics) (t : Tunnel),
      (m.CloseTunnel t).currClientUrlList = m.currClientUrlList) ∧
    WellFormed [.openTunnel ⟨1, Tunnel.make "linux" "http" "http://a.example.com"⟩,
      .closeTunnel ⟨1, Tunnel.make "linux" "http" "http://a.example.com"⟩] ∧
    (live [.openTunnel ⟨1, Tunnel.make "linux" "http" "http://a.example.com"⟩,
      .closeTunnel ⟨1, Tunnel.make "linux" "http" "http://a.example.com"⟩]).map Tunnel.url
      = [] ∧
    (NewLocalMetrics.run [.openTunnel ⟨1, Tunnel.make "linux" "http" "http://a.example.com"⟩,
      .closeTunnel ⟨1, Tunnel.make "linux" "http" "http://a.example.com"⟩]).currClientUrlList
      = ["http://a.example.com"] := by
  refine ⟨fun tr => ?_, fun m t => ?_, by decide, by decide, by decide⟩
  · simp [run_new]
  · simp [CloseTunnel_eq]

/-- C5, as stated, fails: after `CloseConnection` with `bytesOut = MaxInt64` a
second `CloseConnection` with `bytesOut = MaxInt64`, a non-negative count, takes
`bytesOutCount` from `MaxInt64` down to -2. -/
theorem cumulative_not_monotone_on_overflow :
    (Op.closeConnection ⟨1, Tunnel.make "linux" "tcp" "tcp://a:1"⟩ 0 MaxInt64).bytesNonneg ∧
    (NewLocalMetrics.CloseConnection (Tunnel.make "linux" "tcp" "tcp://a:1")
      0 MaxInt64).bytesOutCount.count = MaxInt64 ∧
    ((NewLocalMetrics.CloseConnection (Tunnel.make "linux" "tcp" "tcp://a:1") 0 MaxInt64).apply
      (.closeConnection ⟨1, Tunnel.make "linux" "tcp" "tcp://a:1"⟩ 0 MaxInt64)).bytesOutCount.count
      = -2 ∧
    ¬ List.Forall₂ (fun before after => before ≤ after)
      (NewLocalMetrics.CloseConnection (Tunnel.make "linux" "tcp" "tcp://a:1")
        0 MaxInt64).cumulative
      ((NewLocalMetrics.CloseConnection (Tunnel.make "linux" "tcp" "tcp://a:1") 0 MaxInt64).apply
        (.closeConnection ⟨1, Tunnel.make "linux" "tcp" "tcp://a:1"⟩ 0
          MaxInt64)).cumulative := by
  refine ⟨⟨by decide, by decide⟩, by decide, by decide, ?_⟩
  intro h
  simp only [LocalMetrics.cumulative, List.forall₂_cons] at h
  have h12 := h.2.2.2.2.2.2.2.2.2.2.2.1
  revert h12
  decide

/-- C5, amended: with non-negative byte counts that do not take a byte counter
out of the `int64` range, each of the four operations leaves every cumulative
count at least as large as it was; `CloseTunnel` leaves every cumulative count
as it was, and changes nothing but the current tunnel meter, the current
operating system counters and the current protocol meters. -/
theorem cumulative_monotone_without_overflow (m : LocalMetrics) (op : Op)
    (h : op.bytesNonneg) (ho : op.noByteOverflow m) :
    List.Forall₂ (fun before after => before ≤ after) m.cumulative (m.apply op).cumulative ∧
    (∀ t : Tunnel, (m.CloseTunnel t).cumulative = m.cumulative) ∧
    (∀ t : Tunnel,
      { m.CloseTunnel t with
        currTunnelMeter := m.currTunnelMeter
        currWindowsCounter := m.currWindowsCounter
        currLinuxCounter := m.currLinuxCounter
        currOsxCounter := m.currOsxCounter
        currOtherCounter := m.currOtherCounter
        currTcpTunnelMeter := m.currTcpTunnelMeter
        currHttpTunnelMeter := m.currHttpTunnelMeter
        currUdpTunnelMeter := m.currUdpTunnelMeter
        currHttpsTunnelMeter := m.currHttpsTunnelMeter } = m) := by
  refine ⟨?_, fun t => ?_, fun t => ?_⟩
  · cases op with
    | openTunnel t =>
      have h1 := ind_nonneg (t.val.osIs "windows")
      have h2 := ind_nonneg (t.val.osIs "linux")
      have h3 := ind_nonneg (t.val.osIs "darwin")
      have h4 := ind_nonneg t.val.osOther
      have h5 := ind_nonneg (t.val.protoIs "tcp")
      have h6 := ind_nonneg (t.val.protoIs "http")
      have h7 := ind_nonneg (t.val.protoIs "udp")
      have h8 := ind_nonneg (t.val.protoIs "https")
      simp [LocalMetrics.cumulative, LocalMetrics.apply, OpenTunnel_eq, h1, h2, h3, h4, h5, h6,
        h7, h8]
    | closeTunnel t => simp [LocalMetrics.cumulative, LocalMetrics.apply, CloseTunnel_eq]
    | openConnection t =>
      simp [LocalMetrics.cumulative, LocalMetrics.apply, LocalMetrics.OpenConnection, Meter.Mark]
    | closeConnection t bi bo =>
      simp only [Op.bytesNonneg] at h
      simp only [Op.noByteOverflow] at ho
      simp [LocalMetrics.cumulative, LocalMetrics.apply, LocalMetrics.CloseConnection,
        Meter.Mark, Counter.IncInt64, wrapInt64_of_inInt64 ho.1, wrapInt64_of_inInt64 ho.2,
        h.1, h.2]
  · simp [LocalMetrics.cumulative, CloseTunnel_eq]
  · simp [CloseTunnel_eq]

/-- Witness of the amended C5 on a `CloseConnection` call with positive byte
counts. -/
theorem cumulative_monotone_without_overflow_witness :
    (Op.closeConnection ⟨1, Tunnel.make "linux" "tcp" "tcp://a:1"⟩ 10 20).bytesNonneg ∧
    (Op.closeConnection ⟨1, Tunnel.make "linux" "tcp" "tcp://a:1"⟩ 10 20).noByteOverflow
      NewLocalMetrics ∧
    List.Forall₂ (fun before after => before ≤ after) NewLocalMetrics.cumulative
      (NewLocalMetrics.apply
        (.closeConnection ⟨1, Tunnel.make "linux" "tcp" "tcp://a:1"⟩ 10 20)).cumulative :=
  ⟨⟨by decide, by decide⟩, ⟨by decide, by decide⟩,
    (cumulative_monotone_without_overflow NewLocalMetrics
      (.closeConnection ⟨1, Tunnel.make "linux" "tcp" "tcp://a:1"⟩ 10 20)
      ⟨by decide, by decide⟩ ⟨by decide, by decide⟩).1⟩

theorem openConnections_openCloseConn (cs : List (TunnelPtr × Int × Int)) :
    openConnections (openCloseConn cs) = cs.length := by
  induction cs with
  | nil => rfl
  | cons c cs ih =>
    obtain ⟨t, bi, bo⟩ := c
    simp [openCloseConn, openConnections, ih]

theorem closeConnections_openCloseConn (cs : List (TunnelPtr × Int × Int)) :
    closeConnections (openCloseConn cs) = cs.length := by
  induction cs with
  | nil => rfl
  | cons c cs ih =>
    obtain ⟨t, bi, bo⟩ := c
    simp only [closeConnections] at ih
    simp [openCloseConn, closeConnections, closeConnectionBytes, ih]

/-- C6: after any trace from new metrics `connMeter` is the number of
`OpenConnection` calls and `currConnMeter` is that number minus the number of
`CloseConnection` calls; `OpenTunnel` and `CloseTunnel` change neither; after
`N` connections each opened and closed, `connMeter` is `N` and `currConnMeter`
is 0. -/
theorem connMeter_counts_connections :
    (∀ tr : List Op,
      (NewLocalMetrics.run tr).connMeter.count = openConnections tr ∧
      (NewLocalMetrics.run tr).currConnMeter.count
        = (openConnections tr : Int) - closeConnections tr) ∧
    (∀ (m : LocalMetrics) (t : Tunnel),
      (m.OpenTunnel t).connMeter = m.connMeter ∧
      (m.OpenTunnel t).currConnMeter = m.currConnMeter ∧
      (m.CloseTunnel t).connMeter = m.connMeter ∧
      (m.CloseTunnel t).currConnMeter = m.currConnMeter) ∧
    (∀ cs : List (TunnelPtr × Int × Int),
      (NewLocalMetrics.run (openCloseConn cs)).connMeter.count = cs.length ∧
      (NewLocalMetrics.run (openCloseConn cs)).currConnMeter.count = 0) := by
  refine ⟨fun tr => ?_, fun m t => ?_, fun cs => ?_⟩
  · simp [run_new]
  · simp [OpenTunnel_eq, CloseTunnel_eq]
  · simp [run_new, openConnections_openCloseConn, closeConnections_openCloseConn]

/-- C7, as stated, fails: after `CloseConnection` with `bytesIn = MaxInt64` and
`CloseConnection` with `bytesIn = 1` the counter `bytesInCount` is -2^63, while
the sum of the two arguments is 2^63. -/
theorem bytesInCount_not_sum_on_overflow :
    (NewLocalMetrics.run [.closeConnection ⟨1, Tunnel.make "linux" "tcp" "tcp://a:1"⟩ MaxInt64 0,
      .closeConnection ⟨1, Tunnel.make "linux" "tcp" "tcp://a:1"⟩ 1 0]).bytesInCount.count
      = -9223372036854775808 ∧
    ((closeConnectionBytes
      [.closeConnection ⟨1, Tunnel.make "linux" "tcp" "tcp://a:1"⟩ MaxInt64 0,
        .closeConnection ⟨1, Tunnel.make "linux" "tcp" "tcp://a:1"⟩ 1 0]).map Prod.fst).sum
      = 9223372036854775808 ∧
    (NewLocalMetrics.run [.closeConnection ⟨1, Tunnel.make "linux" "tcp" "tcp://a:1"⟩ MaxInt64 0,
      .closeConnection ⟨1, Tunnel.make "linux" "tcp" "tcp://a:1"⟩ 1 0]).bytesInCount.count
      ≠ ((closeConnectionBytes
        [.closeConnection ⟨1, Tunnel.make "linux" "tcp" "tcp://a:1"⟩ MaxInt64 0,
          .closeConnection ⟨1, Tunnel.make "linux" "tcp" "tcp://a:1"⟩ 1 0]).map
            Prod.fst).sum := by
  refine ⟨by decide, by decide, by decide⟩

/-- C7, amended: after any trace from new metrics `bytesInCount` is the sum of
the `bytesIn` arguments of the `CloseConnection` calls brought into the `int64`
range by wraparound, and `bytesOutCount` is the same for the `bytesOut`
arguments; each is the sum itself whenever that sum is within the `int64`
range.  `OpenTunnel`, `CloseTunnel` and `OpenConnection` change neither
counter, and `CloseConnection` adds `bytesIn` to the one and `bytesOut` to the
other with the `int64` addition. -/
theorem bytes_counts_wrapped_sum_arguments :
    (∀ tr : List Op,
      (NewLocalMetrics.run tr).bytesInCount.count
        = wrapInt64 ((closeConnectionBytes tr).map Prod.fst).sum ∧
      (NewLocalMetrics.run tr).bytesOutCount.count
        = wrapInt64 ((closeConnectionBytes tr).map Prod.snd).sum) ∧
    (∀ tr : List Op, InInt64 ((closeConnectionBytes tr).map Prod.fst).sum →
      (NewLocalMetrics.run tr).bytesInCount.count
        = ((closeConnectionBytes tr).map Prod.fst).sum) ∧
    (∀ tr : List Op, InInt64 ((closeConnectionBytes tr).map Prod.snd).sum →
      (NewLocalMetrics.run tr).bytesOutCount.count
        = ((closeConnectionBytes tr).map Prod.snd).sum) ∧
    (∀ (m : LocalMetrics) (t : Tunnel),
      (m.OpenTunnel t).bytesInCount = m.bytesInCount ∧
      (m.OpenTunnel t).bytesOutCount = m.bytesOutCount ∧
      (m.CloseTunnel t).bytesInCount = m.bytesInCount ∧
      (m.CloseTunnel t).bytesOutCount = m.bytesOutCount ∧
      (m.OpenConnection t).bytesInCount = m.bytesInCount ∧
      (m.OpenConnection t).bytesOutCount = m.bytesOutCount) ∧
    (∀ (m : LocalMetrics) (t : Tunnel) (bytesIn bytesOut : Int),
      (m.CloseConnection t bytesIn bytesOut).bytesInCount.count
        = wrapInt64 (m.bytesInCount.count + bytesIn) ∧
      (m.CloseConnection t bytesIn bytesOut).bytesOutCount.count
        = wrapInt64 (m.bytesOutCount.count + bytesOut)) := by
  refine ⟨fun tr => ?_, fun tr h => ?_, fun tr h => ?_, fun m t => ?_, fun m t bi bo => ?_⟩
  · simp [run_new]
  · simp [run_new, wrapInt64_of_inInt64 h]
  · simp [run_new, wrapInt64_of_inInt64 h]
  · simp [OpenTunnel_eq, CloseTunnel_eq, LocalMetrics.OpenConnection]
  · simp [LocalMetrics.CloseConnection, Counter.IncInt64]

/-- Witness of the amended C7 on two `CloseConnection` calls whose byte counts
add up to 11 in and 22 out. -/
theorem bytes_counts_wrapped_sum_arguments_witness :
    InInt64 ((closeConnectionBytes
      [.closeConnection ⟨1, Tunnel.make "linux" "tcp" "tcp://a:1"⟩ 10 20,
        .openConnection ⟨1, Tunnel.make "linux" "tcp" "tcp://a:1"⟩,
        .closeConnection ⟨1, Tunnel.make "linux" "tcp" "tcp://a:1"⟩ 1 2]).map Prod.fst).sum ∧
    (NewLocalMetrics.run
      [.closeConnection ⟨1, Tunnel.make "linux" "tcp" "tcp://a:1"⟩ 10 20,
        .openConnection ⟨1, Tunnel.make "linux" "tcp" "tcp://a:1"⟩,
        .closeConnection ⟨1, Tunnel.make "linux" "tcp" "tcp://a:1"⟩ 1 2]).bytesInCount.count
      = ((closeConnectionBytes
        [.closeConnection ⟨1, Tunnel.make "linux" "tcp" "tcp://a:1"⟩ 10 20,
          .openConnection ⟨1, Tunnel.make "linux" "tcp" "tcp://a:1"⟩,
          .closeConnection ⟨1, Tunnel.make "linux" "tcp" "tcp://a:1"⟩ 1 2]).map Prod.fst).sum :=
  ⟨by decide, bytes_counts_wrapped_sum_arguments.2.1 _ (by decide)⟩

/-- C9: after any trace from new metrics the four cumulative operating system
counters add up to the count of `tunnelMeter`; `OpenTunnel` adds one to the
windows counter for `"windows"`, to the linux counter for `"linux"`, to the osx
counter for `"darwin"` and to the other counter for every other string, and
leaves the other three as they were. -/
theorem os_counters_sum_to_tunnelMeter :
    (∀ tr : List Op,
      (NewLocalMetrics.run tr).windowsCounter.count + (NewLocalMetrics.run tr).linuxCounter.count
        + (NewLocalMetrics.run tr).osxCounter.count + (NewLocalMetrics.run tr).otherCounter.count
        = (NewLocalMetrics.run tr).tunnelMeter.count) ∧
    (∀ (m : LocalMetrics) (t : Tunnel),
      (m.OpenTunnel t).windowsCounter.count
        = m.windowsCounter.count + (if t.ctl.auth.OS = "windows" then 1 else 0) ∧
      (m.OpenTunnel t).linuxCounter.count
        = m.linuxCounter.count + (if t.ctl.auth.OS = "linux" then 1 else 0) ∧
      (m.OpenTunnel t).osxCounter.count
        = m.osxCounter.count + (if t.ctl.auth.OS = "darwin" then 1 else 0) ∧
      (m.OpenTunnel t).otherCounter.count
        = m.otherCounter.count +
          (if t.ctl.auth.OS ≠ "windows" ∧ t.ctl.auth.OS ≠ "linux" ∧ t.ctl.auth.OS ≠ "darwin"
            then 1 else 0)) ∧
    (∀ (m : LocalMetrics) (protocol url : String),
      ((m.OpenTunnel (Tunnel.make "" protocol url)).otherCounter.count
        = m.otherCounter.count + 1) ∧
      ((m.OpenTunnel (Tunnel.make "Windows" protocol url)).otherCounter.count
        = m.otherCounter.count + 1) ∧
      ((m.OpenTunnel (Tunnel.make "Windows" protocol url)).windowsCounter.count
        = m.windowsCounter.count)) := by
  refine ⟨fun tr => ?_, fun m t => ?_, fun m p u => ?_⟩
  · have := cnt_os_sum (opened tr)
    simp only [run_new]
    exact this
  · simp [OpenTunnel_eq, ind, Tunnel.osIs, Tunnel.osOther, and_assoc]
  · simp [OpenTunnel_eq, ind, Tunnel.osIs, Tunnel.osOther, Tunnel.make]

/-- C10: after any trace from new metrics the four cumulative protocol meters
add up to at most the count of `tunnelMeter`, with equality exactly when the
protocol of every opened tunnel is one of tcp, http, udp, https; opening a
tunnel with any other protocol adds one to `tunnelMeter` and `currTunnelMeter`
and changes no protocol meter, and so does opening and then closing it. -/
theorem protocol_meters_sum_le_tunnelMeter :
    (∀ tr : List Op,
      (NewLocalMetrics.run tr).tcpTunnelMeter.count + (NewLocalMetrics.run tr).httpTunnelMeter.count
        + (NewLocalMetrics.run tr).udpTunnelMeter.count
        + (NewLocalMetrics.run tr).httpsTunnelMeter.count
        ≤ (NewLocalMetrics.run tr).tunnelMeter.count ∧
      ((NewLocalMetrics.run tr).tcpTunnelMeter.count
        + (NewLocalMetrics.run tr).httpTunnelMeter.count
        + (NewLocalMetrics.run tr).udpTunnelMeter.count
        + (NewLocalMetrics.run tr).httpsTunnelMeter.count
        = (NewLocalMetrics.run tr).tunnelMeter.count ↔
          ∀ t ∈ opened tr, t.req.Protocol ∈ ["tcp", "http", "udp", "https"])) ∧
    (∀ (m : LocalMetrics) (t : Tunnel), t.req.Protocol ∉ ["tcp", "http", "udp", "https"] →
      (m.OpenTunnel t).tunnelMeter.count = m.tunnelMeter.count + 1 ∧
      (m.OpenTunnel t).currTunnelMeter.count = m.currTunnelMeter.count + 1 ∧
      (m.OpenTunnel t).protocolMeters = m.protocolMeters ∧
      ((m.OpenTunnel t).CloseTunnel t).protocolMeters = m.protocolMeters) := by
  refine ⟨fun tr => ?_, fun m t ht => ?_⟩
  · have hs := cnt_proto_sum (opened tr)
    have hle : (opened tr).countP Tunnel.protoKnown ≤ (opened tr).length :=
      List.countP_le_length _
    simp only [run_new]
    rw [hs]
    unfold cnt
    refine ⟨by exact_mod_cast hle, ?_⟩
    rw [Nat.cast_inj, List.countP_eq_length]
    simp only [protoKnown_iff]
  · have h1 : t.protoIs "tcp" = false := by
      simp only [Tunnel.protoIs, decide_eq_false_iff_not]; intro h; simp [h] at ht
    have h2 : t.protoIs "http" = false := by
      simp only [Tunnel.protoIs, decide_eq_false_iff_not]; intro h; simp [h] at ht
    have h3 : t.protoIs "udp" = false := by
      simp only [Tunnel.protoIs, decide_eq_false_iff_not]; intro h; simp [h] at ht
    have h4 : t.protoIs "https" = false := by
      simp only [Tunnel.protoIs, decide_eq_false_iff_not]; intro h; simp [h] at ht
    simp [OpenTunnel_eq, CloseTunnel_eq, LocalMetrics.protocolMeters, h1, h2, h3, h4, ind]

/-- Witness of C10 on a tunnel with the protocol `"ftp"`. -/
theorem protocol_meters_sum_le_tunnelMeter_witness :
    (Tunnel.make "linux" "ftp" "ftp://a").req.Protocol ∉ ["tcp", "http", "udp", "https"] ∧
    (NewLocalMetrics.OpenTunnel (Tunnel.make "linux" "ftp" "ftp://a")).tunnelMeter.count
      = NewLocalMetrics.tunnelMeter.count + 1 ∧
    (NewLocalMetrics.OpenTunnel (Tunnel.make "linux" "ftp" "ftp://a")).protocolMeters
      = NewLocalMetrics.protocolMeters :=
  ⟨by decide,
    (protocol_meters_sum_le_tunnelMeter.2 NewLocalMetrics (Tunnel.make "linux" "ftp" "ftp://a")
      (by decide)).1,
    (protocol_meters_sum_le_tunnelMeter.2 NewLocalMetrics (Tunnel.make "linux" "ftp" "ftp://a")
      (by decide)).2.2.1⟩

/-! ## Claim on the choice of the implementation -/

/-- C4, as stated, fails: with `KEEN_API_KEY` set and `KEEN_PROJECT_TOKEN` not
set, `init` still chooses the upstream implementation. -/
theorem init_ignores_project_token :
    ¬ ((init (fun k => if k = "KEEN_API_KEY" then some "key" else none)).isKeen = true ↔
      (Getenv (fun k => if k = "KEEN_API_KEY" then some "key" else none) "KEEN_API_KEY" ≠ "" ∧
        Getenv (fun k => if k = "KEEN_API_KEY" then some "key" else none)
          "KEEN_PROJECT_TOKEN" ≠ "")) := by
  simp [init, Getenv, MetricsChoice.isKeen]

/-- C4, amended: `init` chooses the upstream implementation (batching every 60
seconds) exactly when `KEEN_API_KEY` is set and not empty, and the local
implementation (reporting every 30 seconds) otherwise; `KEEN_PROJECT_TOKEN`
does not enter the choice. -/
theorem init_chooses_by_api_key (env : String → Option String) :
    ((init env).isKeen = true ↔ Getenv env "KEEN_API_KEY" ≠ "") ∧
    (Getenv env "KEEN_API_KEY" ≠ "" → init env = .keen 60) ∧
    (Getenv env "KEEN_API_KEY" = "" → init env = .localMetrics 30) ∧
    (∀ env' : String → Option String, env' "KEEN_API_KEY" = env "KEEN_API_KEY" →
      init env' = init env) := by
  refine ⟨?_, ?_, ?_, ?_⟩
  · by_cases h : Getenv env "KEEN_API_KEY" = "" <;> simp [init, h, MetricsChoice.isKeen]
  · intro h; simp [init, h]
  · intro h; simp [init, h]
  · intro env' h; simp [init, Getenv, h]

/-- Witness of the amended C4 on an environment that sets only the API key. -/
theorem init_chooses_by_api_key_witness :
    Getenv (fun k => if k = "KEEN_API_KEY" then some "key" else none) "KEEN_API_KEY" ≠ "" ∧
    init (fun k => if k = "KEEN_API_KEY" then some "key" else none) = .keen 60 :=
  ⟨by simp [Getenv],
    (init_chooses_by_api_key (fun k => if k = "KEEN_API_KEY" then some "key" else none)).2.1
      (by simp [Getenv])⟩

/-! ## Claim on the batching loop -/

theorem Batch.get_set {ε : Type} (b : Batch ε) (k k' : String) (v : List ε) :
    (b.set k v).get k' = if k = k' then some v else b.get k' := by
  induction b with
  | nil => simp [Batch.set, Batch.get]
  | cons e b ih =>
    obtain ⟨k₀, v₀⟩ := e
    by_cases h : k₀ = k
    · subst h
      by_cases h' : k₀ = k' <;> simp [Batch.set, Batch.get, h']
    · by_cases h' : k₀ = k'
      · subst h'
        have hne : ¬ k = k₀ := fun e => h e.symm
        simp [Batch.set, Batch.get, h, hne]
      · simp [Batch.set, Batch.get, h, h', ih]

theorem Batch.mem_keys_set {ε : Type} (b : Batch ε) (k k' : String) (v : List ε) :
    k' ∈ (b.set k v).keys ↔ k' = k ∨ k' ∈ b.keys := by
  induction b with
  | nil => simp [Batch.set, Batch.keys]
  | cons e b ih =>
    obtain ⟨k₀, v₀⟩ := e
    by_cases h : k₀ = k
    · subst h
      simp [Batch.set, Batch.keys]
    · simp only [Batch.keys] at ih
      simp only [Batch.set, h, if_false, Batch.keys, List.map_cons, List.mem_cons, ih]
      tauto

theorem Batch.nodup_keys_set {ε : Type} (b : Batch ε) (k : String) (v : List ε)
    (h : b.keys.Nodup) : (b.set k v).keys.Nodup := by
  induction b with
  | nil => simp [Batch.set, Batch.keys]
  | cons e b ih =>
    obtain ⟨k₀, v₀⟩ := e
    simp only [Batch.keys, List.map_cons, List.nodup_cons] at h
    by_cases hk : k₀ = k
    · subst hk
      simp only [Batch.set, if_true, Batch.keys, List.map_cons, List.nodup_cons]
      exact h
    · have hm := (Batch.mem_keys_set b k k₀ v).mp
      simp only [Batch.keys] at hm ih
      simp only [Batch.set, hk, if_false, Batch.keys, List.map_cons, List.nodup_cons]
      exact ⟨fun hc => (hm hc).elim hk h.1, ih h.2⟩

theorem Batch.set_ne_nil {ε : Type} (b : Batch ε) (k : String) (v : List ε) :
    b.set k v ≠ [] := by
  cases b with
  | nil => simp [Batch.set]
  | cons e b =>
    obtain ⟨k₀, v₀⟩ := e
    by_cases h : k₀ = k <;> simp [Batch.set, h]

theorem collect_append {ε : Type} (ms : List (KeenIoMetric ε)) (m : KeenIoMetric ε) :
    collect (ms ++ [m]) = (collect ms).add m := by
  simp [collect, List.foldl_append]

theorem eventsFor_append {ε : Type} (c : String) (ms : List (KeenIoMetric ε))
    (m : KeenIoMetric ε) :
    eventsFor c (ms ++ [m]) = eventsFor c ms ++ (if m.Collection = c then [m.Event] else []) := by
  by_cases h : m.Collection = c <;> simp [eventsFor, List.filter_append, h]

theorem get_collect {ε : Type} (ms : List (KeenIoMetric ε)) (c : String) :
    (collect ms).get c = if (eventsFor c ms).isEmpty then none else some (eventsFor c ms) := by
  induction ms using List.reverseRecOn with
  | nil => simp [collect, Batch.get, eventsFor]
  | append_singleton ms m ih =>
    rw [collect_append, eventsFor_append]
    unfold Batch.add
    rw [Batch.get_set]
    by_cases h : m.Collection = c
    · subst h
      rw [ih]
      cases he : eventsFor m.Collection ms <;> simp
    · rw [if_neg h, if_neg h, List.append_nil]
      exact ih

theorem nodup_keys_collect {ε : Type} (ms : List (KeenIoMetric ε)) :
    (collect ms).keys.Nodup := by
  induction ms using List.reverseRecOn with
  | nil => simp [collect, Batch.keys]
  | append_singleton ms m ih =>
    rw [collect_append]
    exact Batch.nodup_keys_set _ _ _ ih

theorem collect_eq_nil {ε : Type} (ms : List (KeenIoMetric ε)) : collect ms = [] ↔ ms = [] := by
  induction ms using List.reverseRecOn with
  | nil => simp [collect]
  | append_singleton ms m _ =>
    rw [collect_append]
    simp [Batch.add, Batch.set_ne_nil]

theorem loopRun_append {ε π : Type} (marshal : Batch ε → Option π) (xs ys : List (Input ε)) :
    ∀ b : Batch ε, loopRun marshal b (xs ++ ys) =
      ((loopRun marshal (loopRun marshal b xs).1 ys).1,
        (loopRun marshal b xs).2 ++ (loopRun marshal (loopRun marshal b xs).1 ys).2) := by
  induction xs with
  | nil => intro b; simp [loopRun]
  | cons x xs ih => intro b; simp [loopRun, ih, List.append_assoc]

theorem loopRun_metrics {ε π : Type} (marshal : Batch ε → Option π)
    (ms : List (KeenIoMetric ε)) :
    ∀ b : Batch ε, loopRun marshal b (ms.map .metric) = (ms.foldl Batch.add b, []) := by
  induction ms with
  | nil => intro b; simp [loopRun]
  | cons m ms ih => intro b; simp [loopRun, loopStep, ih]

theorem loopStep_tick_batch {ε π : Type} (marshal : Batch ε → Option π) (b : Batch ε) :
    (loopStep marshal b .tick).1 = [] := by
  unfold loopStep
  split_ifs with h
  · exact List.length_eq_zero.mp h
  · cases marshal b <;> rfl

/-- A tick on the batch collected from the pending metrics makes the requests
that the claim describes. -/
theorem loopStep_tick_collect {ε π : Type} (marshal : Batch ε → Option π)
    (pending : List (KeenIoMetric ε)) :
    loopStep marshal (collect pending) .tick = ([], tickPosts marshal pending) := by
  cases pending with
  | nil => simp [loopStep, collect, tickPosts]
  | cons m ms =>
    have hne : collect (m :: ms) ≠ [] := fun h => by
      have := (collect_eq_nil (m :: ms)).mp h
      simp at this
    have hl : (collect (m :: ms)).length ≠ 0 := fun h => hne (List.length_eq_zero.mp h)
    unfold loopStep tickPosts
    simp only [hl, if_false]
    cases marshal (collect (m :: ms)) <;> rfl

/-- The loop does what the claim describes, from any batch collected so far. -/
theorem loopRun_collect {ε π : Type} (marshal : Batch ε → Option π) (is : List (Input ε)) :
    ∀ pending : List (KeenIoMetric ε),
      loopRun marshal (collect pending) is
        = (collect (pendingFrom pending is), postsFrom marshal pending is) := by
  induction is with
  | nil => intro pending; rfl
  | cons i is ih =>
    intro pending
    cases i with
    | metric m =>
      have hs : loopStep marshal (collect pending) (.metric m) = (collect (pending ++ [m]), []) := by
        rw [collect_append]; rfl
      simp only [loopRun, hs, ih, pendingFrom, postsFrom, List.nil_append]
    | tick =>
      have hc : ([] : Batch ε) = collect [] := rfl
      simp only [loopRun, loopStep_tick_collect, pendingFrom, postsFrom]
      rw [hc, ih]

theorem events_add {ε : Type} (b : Batch ε) (m : KeenIoMetric ε) (c : String) :
    (b.add m).events c = b.events c ++ (if m.Collection = c then [m.Event] else []) := by
  unfold Batch.events Batch.add
  rw [Batch.get_set]
  by_cases h : m.Collection = c
  · subst h
    cases hg : b.get m.Collection <;> simp
  · simp [h]

theorem eventsFor_cons {ε : Type} (c : String) (m : KeenIoMetric ε)
    (ms : List (KeenIoMetric ε)) :
    eventsFor c (m :: ms) = (if m.Collection = c then [m.Event] else []) ++ eventsFor c ms := by
  by_cases h : m.Collection = c <;> simp [eventsFor, List.filter_cons, h]

/-- With the serializer that hands the batch on as it is, the events posted for
a collection followed by those left in the batch are the events the batch held
at the start followed by those received, in arrival order. -/
theorem postedEvents_loopRun {ε : Type} (c : String) (is : List (Input ε)) :
    ∀ b : Batch ε,
      postedEvents c (loopRun some b is).2 ++ (loopRun some b is).1.events c
        = b.events c ++ eventsFor c (metricsOf is) := by
  induction is with
  | nil => intro b; simp [loopRun, postedEvents, metricsOf, eventsFor]
  | cons i is ih =>
    intro b
    cases i with
    | metric m =>
      simp only [loopRun, loopStep, List.nil_append, ih, events_add, metricsOf, eventsFor_cons,
        List.append_assoc]
    | tick =>
      by_cases hb : b.length = 0
      · have hb' : b = [] := List.length_eq_zero.mp hb
        subst hb'
        simp only [loopRun, loopStep, List.length_nil, if_true, List.nil_append, ih, metricsOf]
      · simp only [loopRun, loopStep, hb, if_false, postedEvents, List.singleton_append,
          List.append_assoc, ih, metricsOf]
        simp [Batch.events, Batch.get]

/-- With any serializer the loop ends on the batch it ends on with the
serializer that hands the batch on, and makes a request for just those of its
batches that serialize. -/
theorem loopRun_marshal {ε π : Type} (marshal : Batch ε → Option π) (is : List (Input ε)) :
    ∀ b : Batch ε,
      (loopRun marshal b is).1 = (loopRun some b is).1 ∧
      (loopRun marshal b is).2
        = (loopRun some b is).2.filterMap
            (fun r => (marshal r.body).map (fun p => { method := r.method, path := r.path, body := p })) := by
  induction is with
  | nil => intro b; simp [loopRun]
  | cons i is ih =>
    intro b
    cases i with
    | metric m =>
      simp only [loopRun, loopStep, List.nil_append]
      exact ih _
    | tick =>
      by_cases hb : b.length = 0
      · simp only [loopRun, loopStep, hb, if_true, List.nil_append]
        exact ih _
      · cases hm : marshal b with
        | none =>
          simp only [loopRun, loopStep, hb, if_false, hm, List.nil_append,
            List.singleton_append, List.filterMap_cons, Option.map_none']
          exact ih _
        | some p =>
          simp only [loopRun, loopStep, hb, if_false, hm, List.singleton_append,
            List.filterMap_cons, Option.map_some']
          exact ⟨(ih _).1, by rw [(ih _).2]⟩

theorem length_tickPosts_le {ε π : Type} (marshal : Batch ε → Option π)
    (pending : List (KeenIoMetric ε)) : (tickPosts marshal pending).length ≤ 1 := by
  cases pending with
  | nil => simp [tickPosts]
  | cons m ms =>
    simp only [tickPosts]
    split <;> simp

theorem length_postsFrom_le {ε π : Type} (marshal : Batch ε → Option π) (is : List (Input ε)) :
    ∀ pending : List (KeenIoMetric ε), (postsFrom marshal pending is).length ≤ ticksOf is := by
  induction is with
  | nil => intro pending; simp [postsFrom, ticksOf]
  | cons i is ih =>
    intro pending
    cases i with
    | metric m => simpa [postsFrom, ticksOf] using ih _
    | tick =>
      have h1 := length_tickPosts_le marshal pending
      have h2 := ih []
      simp only [postsFrom, ticksOf, List.length_append]
      omega

/-- C8: the loop as a step function on the batch.  A tick on the empty batch
posts nothing; a tick on a non-empty batch that serializes posts exactly one
request, a POST to `/events` with the serialized batch; after every tick the
batch is empty, and a metric posts nothing.  On every sequence of inputs the
loop makes exactly the requests of the claim, one for each tick that follows at
least one metric whose batch serializes, so at most one for each tick.  The
batch posted has one entry for each collection that received an event since
the previous tick, holding the events of that collection in arrival order.
The events posted for a collection, in posting order, followed by those still
in the batch, are the events received for it in arrival order: none is posted
twice. -/
theorem keen_loop_posts_each_batch_once {ε π : Type} (marshal : Batch ε → Option π) :
    loopStep marshal [] .tick = ([], []) ∧
    (∀ (b : Batch ε) (payload : π), b ≠ [] → marshal b = some payload →
      loopStep marshal b .tick
        = ([], [{ method := "POST", path := "/events", body := payload }])) ∧
    (∀ b : Batch ε, (loopStep marshal b .tick).1 = []) ∧
    (∀ (b : Batch ε) (m : KeenIoMetric ε), loopStep marshal b (.metric m) = (b.add m, [])) ∧
    (∀ is : List (Input ε),
      loopRun marshal [] is = (collect (pendingFrom [] is), postsFrom marshal [] is)) ∧
    (∀ is : List (Input ε), (loopRun marshal [] is).2.length ≤ ticksOf is) ∧
    (∀ (ms : List (KeenIoMetric ε)) (rest : List (Input ε)),
      loopRun marshal [] (ms.map .metric ++ .tick :: rest)
        = ((loopRun marshal [] rest).1,
            (loopStep marshal (collect ms) .tick).2 ++ (loopRun marshal [] rest).2)) ∧
    (∀ (ms : List (KeenIoMetric ε)) (c : String),
      (collect ms).get c
        = if (eventsFor c ms).isEmpty then none else some (eventsFor c ms)) ∧
    (∀ ms : List (KeenIoMetric ε), (collect ms).keys.Nodup) ∧
    (∀ ms : List (KeenIoMetric ε), collect ms = [] ↔ ms = []) ∧
    (∀ (is : List (Input ε)) (c : String),
      postedEvents c (loopRun some ([] : Batch ε) is).2
          ++ (loopRun some ([] : Batch ε) is).1.events c
        = eventsFor c (metricsOf is)) ∧
    (∀ is : List (Input ε),
      (loopRun marshal [] is).2
        = (loopRun some ([] : Batch ε) is).2.filterMap
            (fun r => (marshal r.body).map
              (fun p => { method := r.method, path := r.path, body := p }))) := by
  refine ⟨by simp [loopStep], ?_, loopStep_tick_batch marshal, fun b m => rfl, ?_, ?_, ?_,
    get_collect, nodup_keys_collect, collect_eq_nil, ?_, ?_⟩
  · intro b payload hb hm
    have hl : b.length ≠ 0 := fun h => hb (List.length_eq_zero.mp h)
    simp [loopStep, hl, hm]
  · intro is
    exact loopRun_collect marshal is []
  · intro is
    have h := loopRun_collect marshal is []
    have hc : collect ([] : List (KeenIoMetric ε)) = [] := rfl
    rw [hc] at h
    rw [h]
    exact length_postsFrom_le marshal is []
  · intro ms rest
    rw [loopRun_append, loopRun_metrics]
    have hc : ms.foldl Batch.add [] = collect ms := rfl
    simp only [hc, loopRun, List.nil_append, loopStep_tick_batch]
  · intro is c
    have h := postedEvents_loopRun c is ([] : Batch ε)
    simpa [Batch.events, Batch.get] using h
  · intro is
    exact (loopRun_marshal marshal is []).2

/-- Witness of C8: two `CloseTunnel` events around a `CloseConnection` event,
then a tick, with a serializer that writes the keys of the batch. -/
theorem keen_loop_posts_each_batch_once_witness :
    collect [⟨"CloseTunnel", "e1"⟩, ⟨"CloseConnection", "e2"⟩, ⟨"CloseTunnel", "e3"⟩]
      = [("CloseTunnel", ["e1", "e3"]), ("CloseConnection", ["e2"])] ∧
    loopStep (fun b : Batch String => some (String.intercalate "," b.keys))
      (collect [⟨"CloseTunnel", "e1"⟩, ⟨"CloseConnection", "e2"⟩, ⟨"CloseTunnel", "e3"⟩]) .tick
      = ([], [{ method := "POST", path := "/events", body := "CloseTunnel,CloseConnection" }]) :=
  ⟨by decide,
    (keen_loop_posts_each_batch_once
      (fun b : Batch String => some (String.intercalate "," b.keys))).2.1
      (collect [⟨"CloseTunnel", "e1"⟩, ⟨"CloseConnection", "e2"⟩, ⟨"CloseTunnel", "e3"⟩])
      "CloseTunnel,CloseConnection" (by decide) (by decide)⟩

end Ngrok
